import Mathlib

/-!
# Verification of the Nihki real-time interpretation server

A shallow embedding, in Lean 4, of the parts of the Nihki server that the
specification's claims are about:

* the per-speaker sentence accumulator of `SpeakerStreamRecognizer`
  (`handleStreamingResponse`, `scheduleEmissionCheck`,
  `emitAccumulatedSentence`, `flush`, `stop`, `start`);
* the voice-activity detector (`calculateRMS`, `isVoiceActivity`,
  `writeAudioChunk`);
* the retry wrapper (`calculateDelay`, `withRetry`);
* the translation service (`standardizeLanguageName`, `translateAudio`);
* the synthesis cache of `handleCompleteSentence`;
* the WebSocket session-room bookkeeping (`join-session`, close cleanup).

JavaScript numbers appearing in the embedded code are modelled exactly over
`ℚ`/`ℤ`/`ℕ`; the one place where an IEEE special value matters (the `NaN`
produced by the RMS of an empty frame) is modelled explicitly as `none` of
an `Option`.  String operations are modelled over `List Char`; the JS
whitespace class is restricted to the ASCII whitespace characters plus
NBSP, which covers every character these claims are about.
-/

/-! ## JavaScript string primitives -/

/-- The characters of the JS `\s` class / `String.prototype.trim`,
restricted to ASCII whitespace plus NBSP. -/
def isJsWhitespace (c : Char) : Bool :=
  c == ' ' || c == '\t' || c == '\n' || c == '\r' ||
  c == '\x0b' || c == '\x0c' || c == ' '

/-- Remove leading and trailing JS whitespace from a character list. -/
def trimChars (l : List Char) : List Char :=
  ((l.dropWhile isJsWhitespace).reverse.dropWhile isJsWhitespace).reverse

/-- JS `s.trim()`. -/
def jsTrim (s : String) : String :=
  String.mk (trimChars s.data)

/-- JS `s.split(sep)` for a single-character separator: every occurrence of
`sep` separates two (possibly empty) segments, so the result always has
(number of occurrences of `sep`) + 1 elements, and `""` splits to `[""]`. -/
def splitCharList (sep : Char) : List Char → List (List Char)
  | [] => [[]]
  | c :: cs =>
    match splitCharList sep cs with
    | h :: t => if c == sep then [] :: h :: t else (c :: h) :: t
    | [] => [[]]

/-- `s.split(' ').length` in JS. -/
def jsSplitOnSpaceLength (s : String) : Nat :=
  (splitCharList ' ' s.data).length

/-- Number of maximal runs of non-whitespace characters in a list. -/
def wsRunCount (l : List Char) : Nat :=
  (l.foldl
    (fun (acc : Nat × Bool) c =>
      if isJsWhitespace c then (acc.1, false)
      else if acc.2 then acc else (acc.1 + 1, true))
    ((0 : Nat), false)).1

/-- `s.split(/\s+/).length` in JS, for a string `s` with no leading and no
trailing whitespace (the source only applies it to `....trim()`):
the empty string splits to `[""]`, and otherwise each maximal run of
non-whitespace characters is one element. -/
def jsSplitWsLength (s : String) : Nat :=
  if s.data = [] then 1 else wsRunCount s.data

/-- The JS regex test `/[.!?]\s*$/.test(s)`: some `.`, `!` or `?` is
followed only by whitespace up to the end of the string, i.e. the last
non-whitespace character of `s` is `.`, `!` or `?`. -/
def hasSentenceEndTest (s : String) : Bool :=
  match s.data.reverse.dropWhile isJsWhitespace with
  | [] => false
  | c :: _ => c == '.' || c == '!' || c == '?'

/-- JS `s.toLowerCase()` on the ASCII strings handled here. -/
def jsToLower (s : String) : String :=
  String.mk (s.data.map Char.toLower)

/-! ## Speaker Stream: sentence accumulator

Embeds `SpeakerStreamRecognizer` of `streaming-audio` (src/unnamed/part_009).
The state carries exactly the fields of the class that the claims touch;
the live provider-stream handles, rotation bookkeeping and log counters are
not represented.  `sentenceEmitTimeout : Bool` records whether a single-shot
silence timer is currently pending (the source stores the timer handle). -/

/-- The payload of a `'sentence'` event emitted by the recognizer. -/
structure SentenceEvent where
  text : String
  language : String
  confidence : ℚ
  participantId : String
  speakerName : String
  sessionId : String
deriving Repr, DecidableEq

/-- The mutable fields of `SpeakerStreamRecognizer` relevant to the claims. -/
structure RecognizerState where
  interimTranscript : String
  /-- whether a single-shot silence timer is pending (`sentenceEmitTimeout`) -/
  sentenceEmitTimeout : Bool
  consecutiveSilentFrames : Nat
  isActive : Bool
  isStarting : Bool
  sampleRate : Nat
  languageCode : String
  participantId : String
  speakerName : String
  sessionId : String
deriving Repr, DecidableEq

namespace SpeakerStreamRecognizer

def SENTENCE_SILENCE_THRESHOLD : Nat := 500

def VAD_SILENCE_THRESHOLD : ℚ := 5

def VAD_CONSECUTIVE_SILENT_FRAMES : Nat := 40

/-- `emitAccumulatedSentence`: emit the trimmed accumulator (unless empty)
with `language: this.languageCode` and `confidence: 0.8`, then clear the
accumulator and cancel any pending silence timer. -/
def emitAccumulatedSentence (st : RecognizerState) :
    RecognizerState × Option SentenceEvent :=
  let completeSentence := jsTrim st.interimTranscript
  if completeSentence = "" then (st, none)
  else
    ({ st with interimTranscript := "", sentenceEmitTimeout := false },
     some { text := completeSentence
            language := st.languageCode
            confidence := 0.8
            participantId := st.participantId
            speakerName := st.speakerName
            sessionId := st.sessionId })

set_option linter.unusedVariables false in
/-- The `result.isFinal` branch of `handleStreamingResponse`.  `confidence`
is the confidence reported by the provider for the fragment; the source
reads it only to log it. -/
def handleFinal (st : RecognizerState) (transcript : String) (confidence : ℚ) :
    RecognizerState × Option SentenceEvent :=
  if jsTrim transcript = "" then (st, none)
  else
    let st := { st with
      interimTranscript := st.interimTranscript ++ transcript ++ " " }
    let hasSentenceEnd := hasSentenceEndTest transcript
    let hasMinimumLength :=
      jsSplitOnSpaceLength (jsTrim st.interimTranscript) ≥ 3
    if hasSentenceEnd ∧ hasMinimumLength then
      emitAccumulatedSentence st
    else
      let wordCount := jsSplitWsLength (jsTrim st.interimTranscript)
      if wordCount ≥ 20 then
        emitAccumulatedSentence st
      else
        -- `scheduleEmissionCheck()`: clear any pending timer, (re)arm a
        -- single-shot timer of SENTENCE_SILENCE_THRESHOLD ms
        ({ st with sentenceEmitTimeout := true }, none)

/-- One provider result, as read by `handleStreamingResponse`.
`languageCode` is reported by the provider but never read by the handler. -/
structure SttAlternative where
  transcript : String
  confidence : ℚ
deriving Repr, DecidableEq

structure SttResult where
  alternatives : List SttAlternative
  isFinal : Bool
  languageCode : String
deriving Repr, DecidableEq

/-- `handleStreamingResponse`: takes `results[0].alternatives[0]`; on a
final result runs the accumulator logic, on an interim result only emits a
live-feedback event (no state change, no sentence event). -/
def handleStreamingResponse (st : RecognizerState) (results : List SttResult) :
    RecognizerState × Option SentenceEvent :=
  match results with
  | [] => (st, none)
  | result :: _ =>
    match result.alternatives with
    | [] => (st, none)
    | alternative :: _ =>
      if result.isFinal then
        handleFinal st alternative.transcript alternative.confidence
      else (st, none)

/-- The callback armed by `scheduleEmissionCheck`, firing with
`elapsed = Date.now() - lastFinalResultTime`: once fired the single-shot
timer is no longer pending; it emits the accumulator iff at least
`SENTENCE_SILENCE_THRESHOLD` ms passed since the last final and the
accumulator is non-blank. -/
def sentenceTimerFire (st : RecognizerState) (elapsed : Nat) :
    RecognizerState × Option SentenceEvent :=
  let st := { st with sentenceEmitTimeout := false }
  if elapsed ≥ SENTENCE_SILENCE_THRESHOLD ∧ jsTrim st.interimTranscript ≠ "" then
    emitAccumulatedSentence st
  else (st, none)

/-- `flush()`: emit any non-blank accumulated transcript (trimmed, with
`confidence: 0.8` and `language: this.languageCode`) and clear it. -/
def flush (st : RecognizerState) : RecognizerState × Option SentenceEvent :=
  if jsTrim st.interimTranscript ≠ "" then
    ({ st with interimTranscript := "" },
     some { text := jsTrim st.interimTranscript
            language := st.languageCode
            confidence := 0.8
            participantId := st.participantId
            speakerName := st.speakerName
            sessionId := st.sessionId })
  else (st, none)

/-- `stop()`: cancel the pending silence timer, `flush()` the accumulator,
close the provider streams and leave the inactive state. -/
def stop (st : RecognizerState) : RecognizerState × Option SentenceEvent :=
  let st := { st with sentenceEmitTimeout := false }
  let (st, ev) := flush st
  ({ st with isActive := false, isStarting := false }, ev)

/-- `start()`: a no-op when already active or starting; otherwise reset the
accumulator and become active. -/
def start (st : RecognizerState) : RecognizerState :=
  if st.isActive || st.isStarting then st
  else { st with interimTranscript := "", isActive := true, isStarting := false }

end SpeakerStreamRecognizer

/-! ## Voice-activity detector

`calculateRMS` / `isVoiceActivity` of `SpeakerStreamRecognizer`.  The
source computes, in IEEE doubles, `rms = sqrt((Σ (sᵢ/32768)²)/n) · 10000`
and compares `rms < 5`.  We model the comparison exactly: for `n ≠ 0` it is
equivalent to the integer inequality `4·10⁶ · Σ sᵢ² < 32768² · n`
(`rmsBelowThreshold_iff_sq` proves the equivalence against the rational
value of `rms²`), and for `n = 0` the source's `0/0` is `NaN`, for which
`NaN < 5` is false. -/

namespace SpeakerStreamRecognizer

/-- Sum of the squared decoded samples, `Σ sᵢ²`. -/
def sumOfSquares (samples : List ℤ) : ℤ :=
  (samples.map (fun s => s * s)).sum

/-- The square of the value `calculateRMS` returns for a decoded sample
list: `rms² = 10⁸ · Σ sᵢ² / (32768² · n)`, with `none` for the `NaN`
produced when `n = 0`. -/
def calculateRMSsq (samples : List ℤ) : Option ℚ :=
  if samples.length = 0 then none
  else some ((10 ^ 8 * (sumOfSquares samples : ℚ)) /
    ((32768 : ℚ) ^ 2 * samples.length))

/-- The test `rms < this.VAD_SILENCE_THRESHOLD` of `isVoiceActivity`, in
exact integer arithmetic; an empty frame gives `rms = NaN` and `NaN < 5`
is false. -/
def rmsIsBelowThreshold (samples : List ℤ) : Bool :=
  if samples.length = 0 then false
  else decide (4000000 * sumOfSquares samples < 1073741824 * (samples.length : ℤ))

/-- `isVoiceActivity(audioChunk)` on the decoded samples of the chunk,
explicit in the `consecutiveSilentFrames` counter: returns
(frame is voice i.e. not filtered, updated counter). -/
def isVoiceActivity (consecutiveSilentFrames : Nat) (samples : List ℤ) :
    Bool × Nat :=
  if rmsIsBelowThreshold samples then
    let c := consecutiveSilentFrames + 1
    if c ≥ VAD_CONSECUTIVE_SILENT_FRAMES then (false, c)
    else (true, c)
  else (true, 0)

/-- `writeAudioChunk` on an ACTIVE stream (neither starting nor inactive):
the VAD gate decides whether the frame is forwarded to the live provider
stream.  Returns (frame was forwarded, updated state). -/
def writeAudioChunkActive (st : RecognizerState) (samples : List ℤ) :
    Bool × RecognizerState :=
  let vad := isVoiceActivity st.consecutiveSilentFrames samples
  (vad.1, { st with consecutiveSilentFrames := vad.2 })

/-! ### Byte-level `calculateRMS`

The source receives a Node `Buffer` (a view of `byteOffset`/`length` into
an `ArrayBuffer`).  Aligned view (`byteOffset` even):
`new Int16Array(buffer.buffer, buffer.byteOffset, buffer.length / 2)` — a
fractional third argument is truncated by `ToIndex`, so an odd-length
buffer silently views `⌊len/2⌋` samples.  Misaligned view: an explicit
copy loop `for (i = 0; i < len; i += 2) readInt16LE(i)`, and Node's
`readInt16LE` throws `ERR_OUT_OF_RANGE` unless `i + 2 ≤ len` — which fails
at the last index when `len` is odd. -/

/-- The signed 16-bit little-endian value of two bytes. -/
def int16OfLE (lo hi : Nat) : ℤ :=
  let u := lo + 256 * hi
  if u < 32768 then (u : ℤ) else (u : ℤ) - 65536

/-- The samples seen through `new Int16Array(buffer.buffer,
buffer.byteOffset, buffer.length / 2)`: consecutive little-endian pairs, a
trailing odd byte not viewed. -/
def alignedSamples : List Nat → List ℤ
  | lo :: hi :: rest => int16OfLE lo hi :: alignedSamples rest
  | _ => []

/-- The misaligned-buffer copy loop: `buffer.readInt16LE(i)` for
`i = 0, 2, 4, … < len`.  When one byte remains (odd `len`), Node's bounds
check makes `readInt16LE` throw `ERR_OUT_OF_RANGE`. -/
def copySamplesLoop : List Nat → Except String (List ℤ)
  | [] => .ok []
  | [_] => .error "ERR_OUT_OF_RANGE"
  | lo :: hi :: rest => do
    let t ← copySamplesLoop rest
    .ok (int16OfLE lo hi :: t)

/-- `calculateRMS(buffer)` from the raw bytes of the buffer view:
`.error` models a thrown exception, and the `.ok` payload is the squared
RMS as in `calculateRMSsq` (`none` for `NaN`). -/
def calculateRMSBytes (byteOffset : Nat) (bytes : List Nat) :
    Except String (Option ℚ) :=
  if byteOffset % 2 = 0 then .ok (calculateRMSsq (alignedSamples bytes))
  else do
    let samples ← copySamplesLoop bytes
    .ok (calculateRMSsq samples)

end SpeakerStreamRecognizer

/-! ## Retry wrapper

`calculateDelay` / `withRetry` of
`src/server/services/streaming-transcription.ts`.  The wrapped operation is
modelled as `fn : Nat → Except ε α` giving the outcome of its
`attempt`-indexed invocation; the transient/permanent classifier
`isTransientError` is a parameter; `rand k` models the value drawn by
`Math.random()` when computing the delay after failed attempt `k`. -/

namespace Retry

structure RetryOptions where
  maxRetries : Nat
  initialDelayMs : ℚ
  maxDelayMs : ℚ
  backoffMultiplier : ℚ
  jitterFactor : ℚ

def DEFAULT_OPTIONS : RetryOptions :=
  { maxRetries := 3
    initialDelayMs := 1000
    maxDelayMs := 30000
    backoffMultiplier := 2
    jitterFactor := 0.1 }

/-- `calculateDelay(attempt, …)`: exponential backoff clamped at
`maxDelayMs` plus jitter `Math.random() * jitterFactor * exponentialDelay`. -/
def calculateDelay (attempt : Nat)
    (initialDelayMs maxDelayMs backoffMultiplier jitterFactor : ℚ)
    (rand : Nat → ℚ) : ℚ :=
  let exponentialDelay := min (initialDelayMs * backoffMultiplier ^ attempt) maxDelayMs
  let jitter := rand attempt * jitterFactor * exponentialDelay
  exponentialDelay + jitter

/-- Outcome of a `withRetry` execution: the surfaced result, the number of
invocations of the wrapped operation, and the total delay slept. -/
structure RetryRun (ε α : Type) where
  result : Except ε α
  calls : Nat
  totalDelay : ℚ

/-- The `for (attempt = 0; attempt <= maxRetries; attempt++)` loop of
`withRetry`, entered at iteration `attempt` with `fuel = maxRetries -
attempt` further iterations allowed (`fuel = 0` is the source's
`attempt >= maxRetries` rethrow). -/
def retryFrom (fn : Nat → Except ε α) (isTransientError : ε → Bool)
    (cfg : RetryOptions) (rand : Nat → ℚ) : Nat → Nat → RetryRun ε α
  | attempt, fuel =>
    match fn attempt with
    | .ok a => ⟨.ok a, 1, 0⟩
    | .error e =>
      if isTransientError e then
        match fuel with
        | 0 => ⟨.error e, 1, 0⟩
        | fuel' + 1 =>
          let delay := calculateDelay attempt cfg.initialDelayMs cfg.maxDelayMs
            cfg.backoffMultiplier cfg.jitterFactor rand
          let rest := retryFrom fn isTransientError cfg rand (attempt + 1) fuel'
          ⟨rest.result, rest.calls + 1, rest.totalDelay + delay⟩
      else ⟨.error e, 1, 0⟩

/-- `withRetry(fn, name, options)`. -/
def withRetry (fn : Nat → Except ε α) (isTransientError : ε → Bool)
    (cfg : RetryOptions) (rand : Nat → ℚ) : RetryRun ε α :=
  retryFrom fn isTransientError cfg rand 0 cfg.maxRetries

end Retry

/-! ## Translation service (src/server/services/translation.ts) -/

namespace Translation

/-- The `LANGUAGE_CODES` table: base ISO code → display name. -/
def LANGUAGE_CODES : List (String × String) :=
  [("en", "English"), ("es", "Spanish"), ("fr", "French"), ("de", "German"),
   ("it", "Italian"), ("pt", "Portuguese"), ("ru", "Russian"), ("zh", "Chinese"),
   ("ja", "Japanese"), ("ko", "Korean"), ("ar", "Arabic"), ("hi", "Hindi"),
   ("nl", "Dutch"), ("sv", "Swedish"), ("da", "Danish"), ("no", "Norwegian"),
   ("fi", "Finnish"), ("pl", "Polish"), ("tr", "Turkish"), ("cs", "Czech"),
   ("hu", "Hungarian"), ("ro", "Romanian"), ("bg", "Bulgarian"), ("hr", "Croatian"),
   ("sk", "Slovak"), ("sl", "Slovenian"), ("et", "Estonian"), ("lv", "Latvian"),
   ("lt", "Lithuanian"), ("uk", "Ukrainian"), ("be", "Belarusian"), ("ca", "Catalan"),
   ("eu", "Basque"), ("gl", "Galician"), ("cy", "Welsh"), ("ga", "Irish"),
   ("mt", "Maltese"), ("is", "Icelandic"), ("mk", "Macedonian"), ("sq", "Albanian"),
   ("sr", "Serbian"), ("bs", "Bosnian"), ("me", "Montenegrin")]

/-- `standardizeLanguageName(language)`: a full display name is returned as
is; otherwise the base of the lowercased code (before any `-`) is looked up
in the table, defaulting to the input. -/
def standardizeLanguageName (language : String) : String :=
  if (LANGUAGE_CODES.map Prod.snd).contains language then language
  else
    -- `language.toLowerCase().split('-')[0]`: the prefix before the first dash
    let lowerCode := String.mk ((jsToLower language).data.takeWhile (fun c => c != '-'))
    (LANGUAGE_CODES.lookup lowerCode).getD language

/-- The non-throwing path of `translateAudio(text, fromLanguage,
toLanguage)`, with the provider `translateText` as an oracle.  Returns the
produced text together with whether the provider was invoked.  (The
timeout/retry handling around the provider call is reached only after the
provider has been invoked and is not modelled.) -/
def translateAudio (translateText : String → String → String → String)
    (text fromLanguage toLanguage : String) : String × Bool :=
  let standardizedFrom := standardizeLanguageName fromLanguage
  let standardizedTo := standardizeLanguageName toLanguage
  if jsToLower standardizedFrom = jsToLower standardizedTo then (text, false)
  else (translateText text standardizedFrom standardizedTo, true)

end Translation

/-! ## Synthesis cache (src/unnamed/part_010)

`audioCache = new Map<string, string>()`, used in `handleCompleteSentence`:
look up `cacheKey`; on a miss generate audio and insert it only when
`audioCache.size < 500`.  A JS `Map` is modelled as an insertion-ordered
association list with distinct keys. -/

namespace AudioCache

/-- JS `Map.prototype.set`: overwrite in place when the key is present,
otherwise append in insertion order. -/
def mapSet (m : List (String × String)) (k v : String) : List (String × String) :=
  if (m.lookup k).isSome then
    m.map (fun p => if p.1 = k then (k, v) else p)
  else m ++ [(k, v)]

def CACHE_LIMIT : Nat := 500

/-- The cache consultation of `handleCompleteSentence` for one synthesized
text: on a hit the cache is unchanged; on a miss the generated audio is
inserted only when `audioCache.size < 500`. -/
def audioCacheStep (cache : List (String × String)) (cacheKey base64Audio : String) :
    List (String × String) :=
  match cache.lookup cacheKey with
  | some _ => cache
  | none =>
    if cache.length < CACHE_LIMIT then mapSet cache cacheKey base64Audio
    else cache

end AudioCache

/-! ## Session rooms (src/unnamed/part_010, WebSocket handler)

`sessionRooms = new Map<string, SessionRoom>()`; a connection is modelled
by its numeric identity plus the handler's closure variables
`currentSessionId` / `currentParticipantId`. -/

namespace Rooms

structure SessionRoom where
  sessionId : String
  clients : List Nat
deriving Repr, DecidableEq

structure ConnState where
  id : Nat
  currentSessionId : Option String
  currentParticipantId : Option String
deriving Repr, DecidableEq

/-- JS `Set.prototype.add` on an insertion-ordered set. -/
def addClientToSet (clients : List Nat) (c : Nat) : List Nat :=
  if clients.contains c then clients else clients ++ [c]

/-- The `'join-session'` case: reject a missing/empty `sessionId` or an
unknown session; otherwise rebind the connection to the session, create the
room if absent, and add the connection to the room's client set.  The
connection is NOT removed from any room it was previously added to. -/
def joinSession (validSessions : List String) (rooms : List SessionRoom)
    (conn : ConnState) (sessionId : String) : List SessionRoom × ConnState :=
  if sessionId = "" then (rooms, conn)
  else if !(validSessions.contains sessionId) then (rooms, conn)
  else
    let conn := { conn with
      currentSessionId := some sessionId, currentParticipantId := none }
    let rooms :=
      if rooms.any (fun r => r.sessionId == sessionId) then
        rooms.map (fun r =>
          if r.sessionId == sessionId then
            { r with clients := addClientToSet r.clients conn.id }
          else r)
      else rooms ++ [{ sessionId := sessionId, clients := addClientToSet [] conn.id }]
    (rooms, conn)

/-- The client set of the room of `sessionId` (empty if no such room). -/
def clientsOf (rooms : List SessionRoom) (sessionId : String) : List Nat :=
  match rooms.find? (fun r => r.sessionId == sessionId) with
  | some r => r.clients
  | none => []

/-- The `ws.on('close')` cleanup: remove the connection from the room of
its CURRENT session only, deleting the room if it became empty. -/
def closeConn (rooms : List SessionRoom) (conn : ConnState) : List SessionRoom :=
  match conn.currentSessionId with
  | none => rooms
  | some sid =>
    if rooms.any (fun r => r.sessionId == sid) then
      let rooms := rooms.map (fun r =>
        if r.sessionId == sid then
          { r with clients := r.clients.filter (fun c => c ≠ conn.id) }
        else r)
      rooms.filter (fun r => !(r.sessionId == sid && r.clients.isEmpty))
    else rooms

/-- Processing a sequence of `join-session` messages on one connection. -/
def processJoins (validSessions : List String)
    (rooms : List SessionRoom) (conn : ConnState) (sids : List String) :
    List SessionRoom × ConnState :=
  sids.foldl (fun p sid => joinSession validSessions p.1 p.2 sid) (rooms, conn)

end Rooms

/-! ## The `audio_metadata` control message (src/unnamed/part_010)

After validating the message and the participant, the handler updates the
stream's `sampleRate`/`languageCode` and restarts it:
`stream.stop(); stream.start();`. -/

namespace AudioMetadata

structure Participant where
  sessionId : String
  name : String
  isSpeaking : Bool
  role : String
deriving Repr, DecidableEq

/-- The `'audio_metadata'` case for a participant whose recognizer stream
`st` already exists.  `none` models a validation failure (the handler
returns without touching the stream); otherwise the handler sets the
stream's configuration, then calls `stop()` (which flushes) and `start()`,
and the flushed sentence event (if any) is returned. -/
def processAudioMetadata (getParticipant : String → Option Participant)
    (currentSessionId : Option String)
    (participantId : String) (sampleRate : Nat) (targetLanguage : Option String)
    (st : RecognizerState) :
    Option (RecognizerState × Option SentenceEvent) :=
  -- `if (!message.participantId || !message.sampleRate)`
  if participantId = "" ∨ sampleRate = 0 then none
  else
    -- `message.targetLanguage || 'en-US'`
    let targetLanguage' := match targetLanguage with
      | some l => if l = "" then "en-US" else l
      | none => "en-US"
    match getParticipant participantId with
    | none => none
    | some participant =>
      match currentSessionId with
      | none => none
      | some sid =>
        if participant.sessionId ≠ sid then none
        else if participant.isSpeaking = false ∧ participant.role ≠ "host" then none
        else
          let st := { st with sampleRate := sampleRate, languageCode := targetLanguage' }
          let stopped := SpeakerStreamRecognizer.stop st
          some (SpeakerStreamRecognizer.start stopped.1, stopped.2)

end AudioMetadata

/-! ## Shared lemmas -/

lemma trimChars_eq_nil_iff (l : List Char) :
    trimChars l = [] ↔ ∀ c ∈ l, isJsWhitespace c := by
  unfold trimChars
  rw [List.reverse_eq_nil_iff, List.dropWhile_eq_nil_iff]
  constructor
  · intro h c hc
    have hsplit := List.takeWhile_append_dropWhile (p := isJsWhitespace) (l := l)
    rw [← hsplit] at hc
    rcases List.mem_append.mp hc with h1 | h2
    · exact List.mem_takeWhile_imp h1
    · exact h _ (List.mem_reverse.mpr h2)
  · intro h c hc
    exact h c ((List.dropWhile_sublist _).subset (List.mem_reverse.mp hc))

lemma jsTrim_eq_empty_iff (s : String) :
    jsTrim s = "" ↔ ∀ c ∈ s.data, isJsWhitespace c := by
  unfold jsTrim
  rw [show ("" : String) = String.mk [] from rfl, String.ext_iff]
  exact trimChars_eq_nil_iff s.data

lemma jsTrim_append_blank_ne (a t : String) (h : jsTrim t ≠ "") :
    jsTrim (a ++ t ++ " ") ≠ "" := by
  intro hcontra
  apply h
  rw [jsTrim_eq_empty_iff] at hcontra ⊢
  intro c hc
  apply hcontra
  simp only [String.data_append]
  exact List.mem_append.mpr (Or.inl (List.mem_append.mpr (Or.inr hc)))

namespace SpeakerStreamRecognizer

lemma emitAccumulatedSentence_isSome (st : RecognizerState) :
    (emitAccumulatedSentence st).2.isSome = true ↔ jsTrim st.interimTranscript ≠ "" := by
  unfold emitAccumulatedSentence
  by_cases h : jsTrim st.interimTranscript = "" <;> simp [h]

lemma emitAccumulatedSentence_eq_some (st st₂ : RecognizerState) (ev : SentenceEvent)
    (h : emitAccumulatedSentence st = (st₂, some ev)) :
    st₂.interimTranscript = "" ∧ st₂.sentenceEmitTimeout = false ∧
    ev.text = jsTrim st.interimTranscript ∧ ev.language = st.languageCode ∧
    ev.confidence = 0.8 := by
  unfold emitAccumulatedSentence at h
  by_cases hc : jsTrim st.interimTranscript = ""
  · simp [hc] at h
  · simp only [hc, if_neg, if_false] at h
    obtain ⟨h1, h2⟩ := Prod.mk.injEq .. ▸ h
    cases h1
    cases Option.some.injEq .. ▸ h2
    simp_all

end SpeakerStreamRecognizer

/-- A freshly configured recognizer state used in concrete instantiations. -/
def freshRecognizer : RecognizerState :=
  { interimTranscript := ""
    sentenceEmitTimeout := false
    consecutiveSilentFrames := 0
    isActive := true
    isStarting := false
    sampleRate := 16000
    languageCode := "en-US"
    participantId := "p1"
    speakerName := "Alice"
    sessionId := "s1" }

/-! ## C1: sentence emission triggers -/

/-- **C1, counterexample.**  The final fragment `"a\tb\tc."` arriving on an
empty accumulator ends with `'.'` and leaves the accumulator with 3
whitespace-separated tokens, so trigger (1) of the claim fires and the
claim predicts an immediate emission; the code emits nothing and arms the
silence timer instead, because its minimum-length check counts segments
split on single spaces (`split(' ')`), of which there is only one here. -/
theorem claim_C1_counterexample :
    hasSentenceEndTest "a\tb\tc." = true ∧
    jsSplitWsLength (jsTrim (freshRecognizer.interimTranscript ++ "a\tb\tc." ++ " ")) = 3 ∧
    jsSplitOnSpaceLength (jsTrim (freshRecognizer.interimTranscript ++ "a\tb\tc." ++ " ")) = 1 ∧
    (SpeakerStreamRecognizer.handleFinal freshRecognizer "a\tb\tc." 1).2 = none ∧
    (SpeakerStreamRecognizer.handleFinal freshRecognizer "a\tb\tc." 1).1.sentenceEmitTimeout = true :=
  ⟨rfl, rfl, rfl, rfl, rfl⟩

/-- **C1 (amended).**  For every final STT fragment with non-blank text
arriving at a Speaker Stream, a Sentence Event is emitted immediately iff
(1) the fragment ends with `.`, `!` or `?` optionally followed by
whitespace AND the trimmed accumulator then splits into at least 3 segments
on single spaces (`split(' ')`), or (2) the accumulator's
whitespace-separated token count reaches at least 20; otherwise the
single-shot 500 ms silence timer is (re)armed, and when it fires with at
least 500 ms elapsed since the last final and a non-blank accumulator it
emits.  On every emission the accumulator is cleared and the pending
silence timer cancelled. -/
theorem claim_C1_emission_triggers (st : RecognizerState) (t : String) (conf : ℚ)
    (ht : jsTrim t ≠ "") :
    (((SpeakerStreamRecognizer.handleFinal st t conf).2.isSome = true ↔
        ((hasSentenceEndTest t = true ∧
          jsSplitOnSpaceLength (jsTrim (st.interimTranscript ++ t ++ " ")) ≥ 3) ∨
         jsSplitWsLength (jsTrim (st.interimTranscript ++ t ++ " ")) ≥ 20))
      ∧ (∀ st₂ ev, SpeakerStreamRecognizer.handleFinal st t conf = (st₂, some ev) →
          st₂.interimTranscript = "" ∧ st₂.sentenceEmitTimeout = false ∧
          ev.text = jsTrim (st.interimTranscript ++ t ++ " "))
      ∧ (∀ st₂, SpeakerStreamRecognizer.handleFinal st t conf = (st₂, none) →
          st₂.sentenceEmitTimeout = true ∧
          st₂.interimTranscript = st.interimTranscript ++ t ++ " "))
    ∧ (∀ (s : RecognizerState) (elapsed : Nat),
        ((SpeakerStreamRecognizer.sentenceTimerFire s elapsed).2.isSome = true ↔
          (elapsed ≥ SpeakerStreamRecognizer.SENTENCE_SILENCE_THRESHOLD ∧
           jsTrim s.interimTranscript ≠ ""))
        ∧ (∀ s₂ ev, SpeakerStreamRecognizer.sentenceTimerFire s elapsed = (s₂, some ev) →
            s₂.interimTranscript = "" ∧ s₂.sentenceEmitTimeout = false ∧
            ev.text = jsTrim s.interimTranscript)) := by
  have hacc : jsTrim (st.interimTranscript ++ t ++ " ") ≠ "" :=
    jsTrim_append_blank_ne _ _ ht
  constructor
  · by_cases hP : hasSentenceEndTest t = true ∧
      jsSplitOnSpaceLength (jsTrim (st.interimTranscript ++ t ++ " ")) ≥ 3
    · -- trigger (1) fires: immediate emission
      refine ⟨?_, ?_, ?_⟩
      · simp [SpeakerStreamRecognizer.handleFinal, ht, hP,
          SpeakerStreamRecognizer.emitAccumulatedSentence, hacc]
      · intro st₂ ev h
        simp only [SpeakerStreamRecognizer.handleFinal, if_neg ht, hP, and_self,
          if_true] at h
        have := SpeakerStreamRecognizer.emitAccumulatedSentence_eq_some _ _ _ h
        exact ⟨this.1, this.2.1, this.2.2.1⟩
      · intro st₂ h
        simp only [SpeakerStreamRecognizer.handleFinal, if_neg ht, hP, and_self,
          if_true] at h
        have := (SpeakerStreamRecognizer.emitAccumulatedSentence_isSome
          ({ st with interimTranscript := st.interimTranscript ++ t ++ " " })).mpr hacc
        rw [h] at this
        simp at this
    · by_cases hW : jsSplitWsLength (jsTrim (st.interimTranscript ++ t ++ " ")) ≥ 20
      · -- trigger (2) fires: immediate emission
        refine ⟨?_, ?_, ?_⟩
        · simp [SpeakerStreamRecognizer.handleFinal, ht, hP, hW,
            SpeakerStreamRecognizer.emitAccumulatedSentence, hacc]
        · intro st₂ ev h
          simp only [SpeakerStreamRecognizer.handleFinal, if_neg ht, hP, if_false,
            hW, if_true] at h
          have := SpeakerStreamRecognizer.emitAccumulatedSentence_eq_some _ _ _ h
          exact ⟨this.1, this.2.1, this.2.2.1⟩
        · intro st₂ h
          simp only [SpeakerStreamRecognizer.handleFinal, if_neg ht, hP, if_false,
            hW, if_true] at h
          have := (SpeakerStreamRecognizer.emitAccumulatedSentence_isSome
            ({ st with interimTranscript := st.interimTranscript ++ t ++ " " })).mpr hacc
          rw [h] at this
          simp at this
      · -- no immediate trigger: the silence timer is (re)armed
        refine ⟨?_, ?_, ?_⟩
        · simp [SpeakerStreamRecognizer.handleFinal, ht, hP, hW]
        · intro st₂ ev h
          simp [SpeakerStreamRecognizer.handleFinal, ht, hP, hW] at h
        · intro st₂ h
          simp only [SpeakerStreamRecognizer.handleFinal, if_neg ht, hP, if_false,
            hW] at h
          cases h.symm
          exact ⟨rfl, rfl⟩
  · intro s elapsed
    by_cases hc : elapsed ≥ SpeakerStreamRecognizer.SENTENCE_SILENCE_THRESHOLD ∧
      jsTrim s.interimTranscript ≠ ""
    · constructor
      · simp [SpeakerStreamRecognizer.sentenceTimerFire, hc,
          SpeakerStreamRecognizer.emitAccumulatedSentence, hc.2]
      · intro s₂ ev h
        unfold SpeakerStreamRecognizer.sentenceTimerFire at h
        rw [if_pos (show _ ∧ _ from ⟨hc.1, hc.2⟩)] at h
        have := SpeakerStreamRecognizer.emitAccumulatedSentence_eq_some _ _ _ h
        exact ⟨this.1, this.2.1, this.2.2.1⟩
    · constructor
      · simp [SpeakerStreamRecognizer.sentenceTimerFire, hc]
      · intro s₂ ev h
        simp [SpeakerStreamRecognizer.sentenceTimerFire, hc] at h

/-- Witness for C1: the fragment "Hello there friend." (punctuation and 3
space-separated tokens) on a fresh accumulator emits immediately. -/
theorem claim_C1_emission_triggers_witness :
    jsTrim "Hello there friend." ≠ "" ∧
    (SpeakerStreamRecognizer.handleFinal freshRecognizer "Hello there friend." 1).2.isSome = true :=
  ⟨by decide,
   (claim_C1_emission_triggers freshRecognizer "Hello there friend." 1 (by decide)).1.1.mpr
     (Or.inl ⟨by decide, by decide⟩)⟩

/-! ## C2: VAD forwarding gate -/

namespace SpeakerStreamRecognizer

lemma rmsIsBelowThreshold_iff_sq (samples : List ℤ) (h : samples ≠ []) :
    rmsIsBelowThreshold samples = true ↔
      ∃ r, calculateRMSsq samples = some r ∧ r < VAD_SILENCE_THRESHOLD ^ 2 := by
  have hn : samples.length ≠ 0 := by simpa using h
  have hnpos : (0 : ℚ) < (samples.length : ℚ) := by
    exact_mod_cast Nat.pos_of_ne_zero hn
  have hpos : (0 : ℚ) < (32768 : ℚ) ^ 2 * samples.length := by positivity
  unfold rmsIsBelowThreshold calculateRMSsq VAD_SILENCE_THRESHOLD
  rw [if_neg hn, if_neg hn]
  simp only [Option.some.injEq, decide_eq_true_eq]
  constructor
  · intro hlt
    refine ⟨_, rfl, ?_⟩
    rw [div_lt_iff₀ hpos]
    have : ((4000000 * sumOfSquares samples : ℤ) : ℚ) <
        ((1073741824 * (samples.length : ℤ) : ℤ) : ℚ) := by exact_mod_cast hlt
    push_cast at this ⊢
    nlinarith [this]
  · rintro ⟨r, hr, hlt⟩
    rw [← hr, div_lt_iff₀ hpos] at hlt
    have : ((4000000 * sumOfSquares samples : ℤ) : ℚ) <
        ((1073741824 * (samples.length : ℤ) : ℤ) : ℚ) := by
      push_cast at hlt ⊢
      nlinarith [hlt]
    exact_mod_cast this

end SpeakerStreamRecognizer

set_option maxRecDepth 8192 in
/-- **C2, counterexample.**  A run of 39 sub-threshold (all-zero) frames
leaves the counter at 39, so the next silent frame has exactly 39
consecutive sub-threshold frames immediately preceding it; 39 < 40, so the
claim says it is forwarded — but the code suppresses it (the counter
reaches the floor of 40 on increment). -/
theorem claim_C2_counterexample :
    Nat.iterate (fun c => (SpeakerStreamRecognizer.isVoiceActivity c [0]).2) 39 0 = 39 ∧
    SpeakerStreamRecognizer.rmsIsBelowThreshold [0] = true ∧
    (39 : Nat) < 40 ∧
    (SpeakerStreamRecognizer.isVoiceActivity 39 [0]).1 = false :=
  ⟨by decide, rfl, by decide, rfl⟩

/-- **C2 (amended).**  A frame written to an ACTIVE stream is forwarded to
the STT provider iff its RMS is at least the silence threshold 5, or fewer
than 39 consecutive sub-threshold frames immediately preceded it (i.e. the
counter including this frame stays below the floor of 40); a frame at or
above the threshold resets the counter to 0 and is always forwarded, and a
sub-threshold frame increments the counter.  The final conjunct ties the
threshold test to the RMS value (squared, computed over little-endian
16-bit PCM samples normalized by 32768 and scaled by 10000). -/
theorem claim_C2_vad_gate (st : RecognizerState) (samples : List ℤ) :
    (((SpeakerStreamRecognizer.writeAudioChunkActive st samples).1 = true ↔
        (SpeakerStreamRecognizer.rmsIsBelowThreshold samples = false ∨
         st.consecutiveSilentFrames + 1 <
           SpeakerStreamRecognizer.VAD_CONSECUTIVE_SILENT_FRAMES))
      ∧ (SpeakerStreamRecognizer.rmsIsBelowThreshold samples = false →
          (SpeakerStreamRecognizer.writeAudioChunkActive st samples).1 = true ∧
          (SpeakerStreamRecognizer.writeAudioChunkActive st samples).2.consecutiveSilentFrames = 0)
      ∧ (SpeakerStreamRecognizer.rmsIsBelowThreshold samples = true →
          (SpeakerStreamRecognizer.writeAudioChunkActive st samples).2.consecutiveSilentFrames
            = st.consecutiveSilentFrames + 1))
    ∧ (samples ≠ [] →
        (SpeakerStreamRecognizer.rmsIsBelowThreshold samples = true ↔
          ∃ r, SpeakerStreamRecognizer.calculateRMSsq samples = some r ∧
            r < SpeakerStreamRecognizer.VAD_SILENCE_THRESHOLD ^ 2)) := by
  refine ⟨⟨?_, ?_, ?_⟩, SpeakerStreamRecognizer.rmsIsBelowThreshold_iff_sq samples⟩
  · by_cases hb : SpeakerStreamRecognizer.rmsIsBelowThreshold samples = true
    · by_cases hc : st.consecutiveSilentFrames + 1 <
        SpeakerStreamRecognizer.VAD_CONSECUTIVE_SILENT_FRAMES
      · simp [SpeakerStreamRecognizer.writeAudioChunkActive,
          SpeakerStreamRecognizer.isVoiceActivity, hb, hc, Nat.not_le_of_lt hc]
      · have hge : st.consecutiveSilentFrames + 1 ≥
            SpeakerStreamRecognizer.VAD_CONSECUTIVE_SILENT_FRAMES := Nat.le_of_not_lt hc
        simp [SpeakerStreamRecognizer.writeAudioChunkActive,
          SpeakerStreamRecognizer.isVoiceActivity, hb, hge, Nat.not_lt_of_le hge]
    · simp [SpeakerStreamRecognizer.writeAudioChunkActive,
        SpeakerStreamRecognizer.isVoiceActivity, hb]
  · intro hb
    simp [SpeakerStreamRecognizer.writeAudioChunkActive,
      SpeakerStreamRecognizer.isVoiceActivity, hb]
  · intro hb
    by_cases hc : st.consecutiveSilentFrames + 1 ≥
        SpeakerStreamRecognizer.VAD_CONSECUTIVE_SILENT_FRAMES <;>
      simp [SpeakerStreamRecognizer.writeAudioChunkActive,
        SpeakerStreamRecognizer.isVoiceActivity, hb, hc]

/-! ## C3: retry wrapper -/

namespace Retry

/-- Upper bound for the delay inserted after failed attempt `k`. -/
def delayBound (cfg : RetryOptions) (k : Nat) : ℚ :=
  min (cfg.initialDelayMs * cfg.backoffMultiplier ^ k) cfg.maxDelayMs *
    (1 + cfg.jitterFactor)

lemma delayBound_nonneg (cfg : RetryOptions) (hj : 0 ≤ cfg.jitterFactor)
    (hi : 0 ≤ cfg.initialDelayMs) (hm : 0 ≤ cfg.maxDelayMs)
    (hb : 0 ≤ cfg.backoffMultiplier) (k : Nat) : 0 ≤ delayBound cfg k := by
  unfold delayBound
  apply mul_nonneg
  · exact le_min (mul_nonneg hi (pow_nonneg hb k)) hm
  · linarith

lemma retryFrom_calls_le {ε α : Type} (fn : Nat → Except ε α) (isT : ε → Bool)
    (cfg : RetryOptions) (rand : Nat → ℚ) :
    ∀ fuel attempt, (retryFrom fn isT cfg rand attempt fuel).calls ≤ fuel + 1 := by
  intro fuel
  induction fuel with
  | zero =>
    intro attempt
    unfold retryFrom
    cases hf : fn attempt with
    | ok a => simp
    | error e => by_cases ht : isT e <;> simp [ht]
  | succ f ih =>
    intro attempt
    unfold retryFrom
    cases hf : fn attempt with
    | ok a => simp
    | error e =>
      by_cases ht : isT e <;> simp [ht]
      exact ih (attempt + 1)

lemma retryFrom_permanent {ε α : Type} (fn : Nat → Except ε α) (isT : ε → Bool)
    (cfg : RetryOptions) (rand : Nat → ℚ) :
    ∀ (k attempt fuel : Nat) (e : ε),
      fn (attempt + k) = .error e → isT e = false →
      (∀ j, j < k → ∃ e', fn (attempt + j) = .error e' ∧ isT e' = true) →
      k ≤ fuel →
      (retryFrom fn isT cfg rand attempt fuel).result = .error e ∧
      (retryFrom fn isT cfg rand attempt fuel).calls = k + 1 := by
  intro k
  induction k with
  | zero =>
    intro attempt fuel e he hperm _ _
    rw [Nat.add_zero] at he
    unfold retryFrom
    rw [he]
    simp [hperm]
  | succ k ih =>
    intro attempt fuel e he hperm htrans hle
    obtain ⟨e0, he0, ht0⟩ := htrans 0 (Nat.succ_pos k)
    rw [Nat.add_zero] at he0
    cases fuel with
    | zero => omega
    | succ f =>
      unfold retryFrom
      rw [he0]
      simp only [ht0, if_true]
      have hrec := ih (attempt + 1) f e
        (by rw [show attempt + 1 + k = attempt + (k + 1) by omega]; exact he)
        hperm
        (fun j hj => by
          rw [show attempt + 1 + j = attempt + (j + 1) by omega]
          exact htrans (j + 1) (Nat.succ_lt_succ hj))
        (by omega)
      exact ⟨hrec.1, by rw [hrec.2]⟩

lemma retryFrom_delay_le {ε α : Type} (fn : Nat → Except ε α) (isT : ε → Bool)
    (cfg : RetryOptions) (rand : Nat → ℚ)
    (hr : ∀ k, 0 ≤ rand k ∧ rand k ≤ 1) (hj : 0 ≤ cfg.jitterFactor)
    (hi : 0 ≤ cfg.initialDelayMs) (hm : 0 ≤ cfg.maxDelayMs)
    (hb : 0 ≤ cfg.backoffMultiplier) :
    ∀ fuel attempt,
      (retryFrom fn isT cfg rand attempt fuel).totalDelay ≤
        ∑ i in Finset.range fuel, delayBound cfg (attempt + i) := by
  intro fuel
  induction fuel with
  | zero =>
    intro attempt
    unfold retryFrom
    cases hf : fn attempt with
    | ok a => simp
    | error e => by_cases ht : isT e <;> simp [ht]
  | succ f ih =>
    intro attempt
    have hsum : ∑ i in Finset.range (f + 1), delayBound cfg (attempt + i)
        = delayBound cfg attempt + ∑ i in Finset.range f, delayBound cfg (attempt + 1 + i) := by
      rw [Finset.sum_range_succ']
      simp only [Nat.add_zero]
      rw [add_comm]
      congr 1
      apply Finset.sum_congr rfl
      intro i _
      congr 1
      omega
    have hterm_nonneg : (0 : ℚ) ≤ ∑ i in Finset.range (f + 1), delayBound cfg (attempt + i) :=
      Finset.sum_nonneg fun i _ => delayBound_nonneg cfg hj hi hm hb _
    unfold retryFrom
    cases hf : fn attempt with
    | ok a => simpa using hterm_nonneg
    | error e =>
      by_cases ht : isT e
      · simp only [ht, if_true]
        have hE : (0 : ℚ) ≤ min (cfg.initialDelayMs * cfg.backoffMultiplier ^ attempt) cfg.maxDelayMs :=
          le_min (mul_nonneg hi (pow_nonneg hb attempt)) hm
      -- the delay after this attempt is at most `delayBound cfg attempt`
        have hdelay : calculateDelay attempt cfg.initialDelayMs cfg.maxDelayMs
            cfg.backoffMultiplier cfg.jitterFactor rand ≤ delayBound cfg attempt := by
          unfold calculateDelay delayBound
          have h1 : rand attempt * cfg.jitterFactor *
              min (cfg.initialDelayMs * cfg.backoffMultiplier ^ attempt) cfg.maxDelayMs ≤
              cfg.jitterFactor *
              min (cfg.initialDelayMs * cfg.backoffMultiplier ^ attempt) cfg.maxDelayMs := by
            have := (hr attempt).2
            have h2 : 0 ≤ cfg.jitterFactor *
                min (cfg.initialDelayMs * cfg.backoffMultiplier ^ attempt) cfg.maxDelayMs :=
              mul_nonneg hj hE
            nlinarith [(hr attempt).1]
          dsimp only
          nlinarith [h1]
        calc (retryFrom fn isT cfg rand (attempt + 1) f).totalDelay +
              calculateDelay attempt cfg.initialDelayMs cfg.maxDelayMs
                cfg.backoffMultiplier cfg.jitterFactor rand
            ≤ (∑ i in Finset.range f, delayBound cfg (attempt + 1 + i)) + delayBound cfg attempt := by
              exact add_le_add (ih (attempt + 1)) hdelay
          _ = ∑ i in Finset.range (f + 1), delayBound cfg (attempt + i) := by
              rw [hsum]; ring
      · simpa [ht] using hterm_nonneg

end Retry

/-- **C3.**  `withRetry` invokes the wrapped operation at most
`maxRetries + 1` times (4 with the defaults); an invocation failing with an
error classified as permanent is rethrown with no further invocations; the
delay inserted after failed attempt `k` equals
`min(initial · multiplier^k, max)` plus a jitter in
`[0, jitterFactor × that]`; and the cumulative delay is bounded by
`∑ₖ min(initial · multiplier^k, max) · (1 + jitterFactor)`. -/
theorem claim_C3_retry_wrapper {ε α : Type} (fn : Nat → Except ε α)
    (isTransientError : ε → Bool) (cfg : Retry.RetryOptions) (rand : Nat → ℚ)
    (hr : ∀ k, 0 ≤ rand k ∧ rand k ≤ 1)
    (hj : 0 ≤ cfg.jitterFactor) (hi : 0 ≤ cfg.initialDelayMs)
    (hm : 0 ≤ cfg.maxDelayMs) (hb : 0 ≤ cfg.backoffMultiplier) :
    (Retry.withRetry fn isTransientError cfg rand).calls ≤ cfg.maxRetries + 1
    ∧ Retry.DEFAULT_OPTIONS.maxRetries + 1 = 4
    ∧ (∀ k e, k ≤ cfg.maxRetries → fn k = .error e → isTransientError e = false →
        (∀ j, j < k → ∃ e', fn j = .error e' ∧ isTransientError e' = true) →
        (Retry.withRetry fn isTransientError cfg rand).result = .error e ∧
        (Retry.withRetry fn isTransientError cfg rand).calls = k + 1)
    ∧ (∀ k, Retry.calculateDelay k cfg.initialDelayMs cfg.maxDelayMs
          cfg.backoffMultiplier cfg.jitterFactor rand =
        min (cfg.initialDelayMs * cfg.backoffMultiplier ^ k) cfg.maxDelayMs +
          rand k * cfg.jitterFactor *
            min (cfg.initialDelayMs * cfg.backoffMultiplier ^ k) cfg.maxDelayMs
        ∧ 0 ≤ rand k * cfg.jitterFactor *
            min (cfg.initialDelayMs * cfg.backoffMultiplier ^ k) cfg.maxDelayMs
        ∧ rand k * cfg.jitterFactor *
            min (cfg.initialDelayMs * cfg.backoffMultiplier ^ k) cfg.maxDelayMs ≤
          cfg.jitterFactor *
            min (cfg.initialDelayMs * cfg.backoffMultiplier ^ k) cfg.maxDelayMs)
    ∧ (Retry.withRetry fn isTransientError cfg rand).totalDelay ≤
        ∑ k in Finset.range cfg.maxRetries,
          min (cfg.initialDelayMs * cfg.backoffMultiplier ^ k) cfg.maxDelayMs *
            (1 + cfg.jitterFactor) := by
  refine ⟨?_, rfl, ?_, ?_, ?_⟩
  · exact Retry.retryFrom_calls_le fn isTransientError cfg rand cfg.maxRetries 0
  · intro k e hk he hperm htrans
    exact Retry.retryFrom_permanent fn isTransientError cfg rand k 0 cfg.maxRetries e
      (by simpa using he) hperm (by simpa using htrans) hk
  · intro k
    have hE : (0 : ℚ) ≤ min (cfg.initialDelayMs * cfg.backoffMultiplier ^ k) cfg.maxDelayMs :=
      le_min (mul_nonneg hi (pow_nonneg hb k)) hm
    refine ⟨rfl, ?_, ?_⟩
    · exact mul_nonneg (mul_nonneg (hr k).1 hj) hE
    · nlinarith [(hr k).1, (hr k).2, mul_nonneg hj hE]
  · have h := Retry.retryFrom_delay_le fn isTransientError cfg rand hr hj hi hm hb
      cfg.maxRetries 0
    simpa [Retry.delayBound] using h

/-- Witness for C3: a permanently failing operation is invoked exactly once
and its error surfaces. -/
theorem claim_C3_retry_wrapper_witness :
    (Retry.withRetry (fun _ : Nat => (Except.error "bad" : Except String Nat))
        (fun _ => false) ⟨3, 0, 0, 0, 0⟩ (fun _ => 0)).calls ≤ 3 + 1 ∧
    (Retry.withRetry (fun _ : Nat => (Except.error "bad" : Except String Nat))
        (fun _ => false) ⟨3, 0, 0, 0, 0⟩ (fun _ => 0)).result = .error "bad" := by
  have h := claim_C3_retry_wrapper (fun _ : Nat => (Except.error "bad" : Except String Nat))
    (fun _ => false) ⟨3, 0, 0, 0, 0⟩ (fun _ => 0)
    (fun k => ⟨le_refl 0, zero_le_one⟩) (le_refl 0) (le_refl 0) (le_refl 0) (le_refl 0)
  exact ⟨h.1, (h.2.2.1 0 "bad" (Nat.zero_le 3) rfl rfl
    (fun j hj => absurd hj (Nat.not_lt_zero j))).1⟩

/-! ## C4: RMS on odd-length / misaligned buffers -/

/-- **C4.**  The RMS computation does NOT complete without throwing for
every buffer: on a misaligned buffer of odd byte length the copy loop's
last `readInt16LE` reads past the end of the buffer and throws
`ERR_OUT_OF_RANGE` (first two conjuncts).  An aligned buffer never throws
— an aligned odd-length buffer is silently truncated to `⌊len/2⌋` samples
rather than copied (last two conjuncts). -/
theorem claim_C4_odd_misaligned_throws :
    SpeakerStreamRecognizer.calculateRMSBytes 1 [5] = .error "ERR_OUT_OF_RANGE"
    ∧ SpeakerStreamRecognizer.calculateRMSBytes 1 [5, 0, 7] = .error "ERR_OUT_OF_RANGE"
    ∧ SpeakerStreamRecognizer.calculateRMSBytes 0 [5] = .ok none
    ∧ (∀ byteOffset bytes, byteOffset % 2 = 0 →
        SpeakerStreamRecognizer.calculateRMSBytes byteOffset bytes =
          .ok (SpeakerStreamRecognizer.calculateRMSsq
            (SpeakerStreamRecognizer.alignedSamples bytes))) := by
  refine ⟨rfl, rfl, rfl, ?_⟩
  intro byteOffset bytes h
  unfold SpeakerStreamRecognizer.calculateRMSBytes
  rw [if_pos h]

/-! ## C5: same-language translation passthrough -/

/-- **C5.**  For every text and every pair of languages whose standardized
display names are equal (in particular when the two languages are equal),
`translateAudio` returns the input text verbatim without invoking the
translation provider. -/
theorem claim_C5_same_language_passthrough
    (translateText : String → String → String → String)
    (text fromLanguage toLanguage : String)
    (h : Translation.standardizeLanguageName fromLanguage =
         Translation.standardizeLanguageName toLanguage) :
    Translation.translateAudio translateText text fromLanguage toLanguage =
      (text, false) := by
  unfold Translation.translateAudio
  rw [h]
  simp

/-- Witness for C5: "en-US" and "English" standardize to the same display
name, and translating between them returns the input without a provider
call (also with `fromLanguage = toLanguage = "English"`). -/
theorem claim_C5_same_language_passthrough_witness :
    Translation.standardizeLanguageName "en-US" =
      Translation.standardizeLanguageName "English" ∧
    Translation.translateAudio (fun _ _ _ => "PROVIDER CALLED") "Hello" "en-US" "English" =
      ("Hello", false) ∧
    Translation.translateAudio (fun _ _ _ => "PROVIDER CALLED") "Hola" "English" "English" =
      ("Hola", false) :=
  ⟨rfl,
   claim_C5_same_language_passthrough _ "Hello" "en-US" "English" rfl,
   claim_C5_same_language_passthrough _ "Hola" "English" "English" rfl⟩

/-! ## C10: zero-length frame is classified as voice -/

/-- **C10.**  A zero-length audio frame written to an ACTIVE stream: the
RMS computation yields `NaN` (modelled `none`, from `0/0`), the comparison
`NaN < 5` is false, so the empty frame counts as voice activity — the
consecutive-silent-frame counter is reset to 0 and the frame is forwarded
to the STT stream. -/
theorem claim_C10_empty_frame_is_voice (st : RecognizerState) :
    SpeakerStreamRecognizer.calculateRMSBytes 0 [] = .ok none
    ∧ SpeakerStreamRecognizer.calculateRMSsq [] = none
    ∧ SpeakerStreamRecognizer.rmsIsBelowThreshold [] = false
    ∧ SpeakerStreamRecognizer.isVoiceActivity st.consecutiveSilentFrames [] = (true, 0)
    ∧ SpeakerStreamRecognizer.writeAudioChunkActive st [] =
        (true, { st with consecutiveSilentFrames := 0 }) :=
  ⟨rfl, rfl, rfl, rfl, rfl⟩

/-! ## C6: synthesis cache bound -/

namespace AudioCache

lemma mapSet_length_of_not_mem (m : List (String × String)) (k v : String)
    (h : m.lookup k = none) : (mapSet m k v).length = m.length + 1 := by
  unfold mapSet
  rw [h]
  simp

lemma audioCacheStep_length_le (m : List (String × String)) (k v : String)
    (h : m.length ≤ 500) : (audioCacheStep m k v).length ≤ 500 := by
  unfold audioCacheStep
  cases hl : m.lookup k with
  | some w => exact h
  | none =>
    by_cases hlen : m.length < CACHE_LIMIT
    · rw [if_pos hlen, mapSet_length_of_not_mem m k v hl]
      exact hlen
    · rw [if_neg hlen]
      exact h

end AudioCache

/-- A synthesis cache filled to its limit with 500 distinct keys. -/
def fullAudioCache : List (String × String) :=
  (List.range 500).map (fun i => (Nat.repr i, "cached-audio"))

set_option maxRecDepth 100000 in
/-- **C6, counterexample.**  With the cache at its 500-entry capacity, a
new (text, language) key is NOT admitted and no older entry is evicted:
`handleCompleteSentence` simply skips the insert, leaving the cache
unchanged — there is no FIFO eviction. -/
theorem claim_C6_counterexample :
    fullAudioCache.length = 500 ∧
    fullAudioCache.lookup "new sentence|en-US" = none ∧
    AudioCache.audioCacheStep fullAudioCache "new sentence|en-US" "audio" = fullAudioCache ∧
    (0 : Nat) < 500 ∧ fullAudioCache.lookup (Nat.repr 0) = some "cached-audio" :=
  ⟨by simp [fullAudioCache], by decide, rfl, by decide, by decide⟩

/-- **C6 (amended).**  The synthesis cache never holds more than 500
entries: every reachable cache state (any fold of cache steps from the
empty cache) has at most 500 entries, one step preserves the bound, and a
write is admitted only when the current size is below 500 — at capacity a
new entry is dropped, with no eviction. -/
theorem claim_C6_cache_bound :
    (∀ ops : List (String × String),
      (ops.foldl (fun m kv => AudioCache.audioCacheStep m kv.1 kv.2) []).length ≤ 500)
    ∧ (∀ (m : List (String × String)) (k v : String), m.length ≤ 500 →
        (AudioCache.audioCacheStep m k v).length ≤ 500)
    ∧ (∀ (m : List (String × String)) (k v : String), 500 ≤ m.length →
        m.lookup k = none → AudioCache.audioCacheStep m k v = m) := by
  refine ⟨?_, AudioCache.audioCacheStep_length_le, ?_⟩
  · have hgen : ∀ (ops : List (String × String)) (m : List (String × String)),
        m.length ≤ 500 →
        (ops.foldl (fun m kv => AudioCache.audioCacheStep m kv.1 kv.2) m).length ≤ 500 := by
      intro ops
      induction ops with
      | nil => intro m hm; exact hm
      | cons kv t ih =>
        intro m hm
        exact ih _ (AudioCache.audioCacheStep_length_le m kv.1 kv.2 hm)
    intro ops
    exact hgen ops [] (by simp)
  · intro m k v hfull hmiss
    unfold AudioCache.audioCacheStep
    rw [hmiss, if_neg (by unfold AudioCache.CACHE_LIMIT; omega)]

/-! ## C7: room membership across join messages -/

namespace Rooms

lemma addClientToSet_contains_self (clients : List Nat) (c : Nat) :
    (addClientToSet clients c).contains c = true := by
  unfold addClientToSet
  by_cases h : clients.contains c = true
  · rw [if_pos h]; exact h
  · rw [if_neg h]; simp

lemma joinSession_conn (validSessions : List String) (rooms : List SessionRoom)
    (conn : ConnState) (sid : String)
    (hne : sid ≠ "") (hv : validSessions.contains sid = true) :
    (joinSession validSessions rooms conn sid).2 =
      { conn with currentSessionId := some sid, currentParticipantId := none } := by
  unfold joinSession
  rw [if_neg hne, if_neg (by simpa using hv)]

lemma clientsOf_joinSession (validSessions : List String) (rooms : List SessionRoom)
    (conn : ConnState) (sid : String)
    (hne : sid ≠ "") (hv : validSessions.contains sid = true) (sid' : String) :
    clientsOf (joinSession validSessions rooms conn sid).1 sid' =
      if sid' = sid then addClientToSet (clientsOf rooms sid) conn.id
      else clientsOf rooms sid' := by
  unfold joinSession
  rw [if_neg hne, if_neg (by simpa using hv)]
  dsimp only
  by_cases hany : rooms.any (fun r => r.sessionId == sid) = true
  · -- the room already exists: the map-update branch
    rw [if_pos hany]
    unfold clientsOf
    have hpf : ((fun (r : SessionRoom) => r.sessionId == sid') ∘
        (fun r => if r.sessionId == sid then
          { r with clients := addClientToSet r.clients conn.id } else r)) =
        fun r => r.sessionId == sid' := by
      funext r
      simp only [Function.comp_apply]
      by_cases hr : (r.sessionId == sid) = true
      · rw [if_pos hr]
      · rw [if_neg hr]
    rw [List.find?_map, hpf]
    cases hf : rooms.find? (fun r => r.sessionId == sid') with
    | none =>
      simp only [Option.map_none']
      by_cases hss : sid' = sid
      · subst hss
        obtain ⟨r, hrmem, hrp⟩ := List.any_eq_true.mp hany
        have := List.find?_eq_none.mp hf r hrmem
        simp_all
      · rw [if_neg hss]
    | some r =>
      have hp := List.find?_some hf
      simp only [] at hp
      simp only [Option.map_some']
      by_cases hss : sid' = sid
      · subst hss
        rw [if_pos rfl, if_pos hp, hf]
      · rw [if_neg hss]
        rw [if_neg (by
          intro hc
          exact hss (((beq_iff_eq ..).mp hp).symm.trans ((beq_iff_eq ..).mp hc)))]
  · -- no room yet: the append branch
    rw [if_neg hany]
    unfold clientsOf
    rw [List.find?_append]
    have hnone : rooms.find? (fun r => r.sessionId == sid) = none := by
      rw [List.find?_eq_none]
      intro r hr hp
      exact hany (List.any_eq_true.mpr ⟨r, hr, hp⟩)
    by_cases hss : sid' = sid
    · subst hss
      rw [hnone]
      simp
    · cases hf : rooms.find? (fun r => r.sessionId == sid') with
      | none =>
        have hnew : (({ sessionId := sid, clients := addClientToSet [] conn.id } :
            SessionRoom).sessionId == sid') = false := by
          rw [beq_eq_false_iff_ne]
          exact fun hc => hss hc.symm
        simp [hss, List.find?, hnew]
      | some r =>
        simp [hss]

end Rooms

namespace Rooms

lemma processJoins_spec (validSessions : List String) :
    ∀ (sids : List String) (rooms : List SessionRoom) (conn : ConnState),
      (∀ s ∈ sids, validSessions.contains s = true ∧ s ≠ "") →
      (processJoins validSessions rooms conn sids).2.id = conn.id
      ∧ (∀ sid',
          (clientsOf (processJoins validSessions rooms conn sids).1 sid').contains conn.id =
            (sids.contains sid' || (clientsOf rooms sid').contains conn.id))
      ∧ (processJoins validSessions rooms conn sids).2.currentSessionId =
          (match sids.getLast? with
           | some s => some s
           | none => conn.currentSessionId) := by
  intro sids
  induction sids with
  | nil =>
    intro rooms conn hval
    exact ⟨rfl, fun sid' => by simp [processJoins], rfl⟩
  | cons s ss ih =>
    intro rooms conn hval
    obtain ⟨hsv, hsne⟩ := hval s (List.mem_cons_self s ss)
    have hval' : ∀ x ∈ ss, validSessions.contains x = true ∧ x ≠ "" :=
      fun x hx => hval x (List.mem_cons_of_mem s hx)
    have hstep : processJoins validSessions rooms conn (s :: ss) =
        processJoins validSessions (joinSession validSessions rooms conn s).1
          (joinSession validSessions rooms conn s).2 ss := rfl
    have hconn := joinSession_conn validSessions rooms conn s hsne hsv
    have hid : (joinSession validSessions rooms conn s).2.id = conn.id := by
      rw [hconn]
    obtain ⟨ih1, ih2, ih3⟩ := ih (joinSession validSessions rooms conn s).1
      (joinSession validSessions rooms conn s).2 hval'
    refine ⟨?_, ?_, ?_⟩
    · rw [hstep, ih1, hid]
    · intro sid'
      rw [hstep]
      have hmem := ih2 sid'
      rw [hid, clientsOf_joinSession validSessions rooms conn s hsne hsv sid'] at hmem
      by_cases hss : sid' = s
      · subst hss
        rw [if_pos rfl] at hmem
        rw [hmem]
        have hself := addClientToSet_contains_self (clientsOf rooms sid') conn.id
        rw [hself, Bool.or_true, List.contains_cons]
        simp
      · rw [if_neg hss] at hmem
        rw [hmem, List.contains_cons]
        have hbeq : (sid' == s) = false := by
          rw [beq_eq_false_iff_ne]; exact hss
        simp [hbeq, Bool.or_assoc]
    · rw [hstep, ih3]
      cases ss with
      | nil => simp [hconn]
      | cons b t =>
        rw [List.getLast?_cons_cons]
        cases hbt : (b :: t).getLast? with
        | none => simp at hbt
        | some x => rfl

end Rooms

/-- **C7, counterexample.**  A connection that joins session "A" and then
session "B" remains in the client set of room "A" while also being in room
"B": its reference is held by two Session Rooms, not exactly one. -/
theorem claim_C7_counterexample :
    (Rooms.clientsOf (Rooms.processJoins ["A", "B"] []
        { id := 0, currentSessionId := none, currentParticipantId := none }
        ["A", "B"]).1 "A").contains 0 = true
    ∧ (Rooms.clientsOf (Rooms.processJoins ["A", "B"] []
        { id := 0, currentSessionId := none, currentParticipantId := none }
        ["A", "B"]).1 "B").contains 0 = true
    ∧ ("A" : String) ≠ "B"
    ∧ (Rooms.processJoins ["A", "B"] []
        { id := 0, currentSessionId := none, currentParticipantId := none }
        ["A", "B"]).2.currentSessionId = some "B" := by
  refine ⟨by decide, by decide, by decide, by decide⟩

/-- **C7 (amended).**  After any sequence of successfully processed
`join-session` messages on one fresh connection, the connection is bound to
exactly one session — the last one joined — but its reference is held in
the client set of the room of EVERY session it has joined (so in exactly
one room only when all joins name the same session): `join-session` never
removes the connection from a previously joined room. -/
theorem claim_C7_room_binding (validSessions : List String)
    (rooms : List Rooms.SessionRoom) (conn : Rooms.ConnState) (sids : List String)
    (hval : ∀ s ∈ sids, validSessions.contains s = true ∧ s ≠ "")
    (hfresh : ∀ sid', (Rooms.clientsOf rooms sid').contains conn.id = false) :
    (∀ sid',
      (Rooms.clientsOf (Rooms.processJoins validSessions rooms conn sids).1 sid').contains conn.id
        = sids.contains sid')
    ∧ (Rooms.processJoins validSessions rooms conn sids).2.currentSessionId =
        (match sids.getLast? with
         | some s => some s
         | none => conn.currentSessionId)
    ∧ (Rooms.processJoins validSessions rooms conn sids).2.id = conn.id := by
  obtain ⟨h1, h2, h3⟩ := Rooms.processJoins_spec validSessions sids rooms conn hval
  refine ⟨?_, h3, h1⟩
  intro sid'
  rw [h2 sid', hfresh sid']
  simp

/-- Witness for C7: a connection joining only session "A" (twice) ends up
in room "A" and bound to session "A". -/
theorem claim_C7_room_binding_witness :
    (Rooms.clientsOf (Rooms.processJoins ["A"] []
        { id := 7, currentSessionId := none, currentParticipantId := none }
        ["A", "A"]).1 "A").contains 7 = true
    ∧ (Rooms.processJoins ["A"] []
        { id := 7, currentSessionId := none, currentParticipantId := none }
        ["A", "A"]).2.currentSessionId = some "A" := by
  have h := claim_C7_room_binding ["A"] []
    { id := 7, currentSessionId := none, currentParticipantId := none } ["A", "A"]
    (by decide) (fun sid' => rfl)
  exact ⟨(h.1 "A").trans (by decide), h.2.1⟩

/-! ## C8: emitted events carry confidence 0.8 and the configured language -/

namespace SpeakerStreamRecognizer

lemma handleFinal_eq_some (st st₂ : RecognizerState) (t : String) (c : ℚ)
    (ev : SentenceEvent) (h : handleFinal st t c = (st₂, some ev)) :
    ev.confidence = 0.8 ∧ ev.language = st.languageCode := by
  unfold handleFinal at h
  by_cases htr : jsTrim t = ""
  · rw [if_pos htr] at h
    simp at h
  · rw [if_neg htr] at h
    dsimp only at h
    split_ifs at h with h1 h2
    · have := emitAccumulatedSentence_eq_some _ _ _ h
      exact ⟨this.2.2.2.2, this.2.2.2.1⟩
    · have := emitAccumulatedSentence_eq_some _ _ _ h
      exact ⟨this.2.2.2.2, this.2.2.2.1⟩
    · simp at h

end SpeakerStreamRecognizer

/-- **C8.**  Every Sentence Event emitted by a Speaker Stream — whether by
a trigger in `handleStreamingResponse` or by `flush` (used on stop) —
carries confidence exactly 0.8 and language equal to the stream's
configured `languageCode`, regardless of the confidence and language code
reported by the STT provider in the underlying results. -/
theorem claim_C8_event_confidence_language (st : RecognizerState) :
    (∀ (results : List SpeakerStreamRecognizer.SttResult)
        (st₂ : RecognizerState) (ev : SentenceEvent),
      SpeakerStreamRecognizer.handleStreamingResponse st results = (st₂, some ev) →
      ev.confidence = 0.8 ∧ ev.language = st.languageCode)
    ∧ (∀ (st₂ : RecognizerState) (ev : SentenceEvent),
      SpeakerStreamRecognizer.flush st = (st₂, some ev) →
      ev.confidence = 0.8 ∧ ev.language = st.languageCode) := by
  constructor
  · intro results st₂ ev h
    cases results with
    | nil => simp [SpeakerStreamRecognizer.handleStreamingResponse] at h
    | cons r rs =>
      unfold SpeakerStreamRecognizer.handleStreamingResponse at h
      dsimp only at h
      cases halt : r.alternatives with
      | nil =>
        rw [halt] at h
        simp at h
      | cons alt alts =>
        rw [halt] at h
        dsimp only at h
        by_cases hf : r.isFinal = true
        · rw [if_pos hf] at h
          exact SpeakerStreamRecognizer.handleFinal_eq_some st st₂ alt.transcript
            alt.confidence ev h
        · rw [if_neg hf] at h
          simp at h
  · intro st₂ ev h
    unfold SpeakerStreamRecognizer.flush at h
    by_cases htr : jsTrim st.interimTranscript ≠ ""
    · rw [if_pos htr] at h
      simp only [Prod.mk.injEq, Option.some.injEq] at h
      cases h.2
      exact ⟨rfl, rfl⟩
    · rw [if_neg htr] at h
      simp at h

/-- Witness for C8: a final result reported with confidence 0.33 and
language "fr-FR" still yields an event with confidence 0.8 and the
stream's configured "en-US". -/
theorem claim_C8_event_confidence_language_witness :
    (SpeakerStreamRecognizer.handleStreamingResponse freshRecognizer
        [{ alternatives := [{ transcript := "Hello there friend.", confidence := 0.33 }],
           isFinal := true, languageCode := "fr-FR" }]).2 =
      some { text := "Hello there friend.", language := "en-US", confidence := 0.8,
             participantId := "p1", speakerName := "Alice", sessionId := "s1" }
    ∧ ({ text := "Hello there friend.", language := "en-US", confidence := 0.8,
         participantId := "p1", speakerName := "Alice", sessionId := "s1" } :
           SentenceEvent).confidence = 0.8
    ∧ ({ text := "Hello there friend.", language := "en-US", confidence := 0.8,
         participantId := "p1", speakerName := "Alice", sessionId := "s1" } :
           SentenceEvent).language = freshRecognizer.languageCode :=
  ⟨rfl,
   (claim_C8_event_confidence_language freshRecognizer).1
     [{ alternatives := [{ transcript := "Hello there friend.", confidence := 0.33 }],
        isFinal := true, languageCode := "fr-FR" }] _ _ rfl⟩

/-! ## C9: audio_metadata restarts the stream and flushes the accumulator -/

namespace SpeakerStreamRecognizer

lemma stop_pos (st : RecognizerState) (h : jsTrim st.interimTranscript ≠ "") :
    stop st =
      ({ st with
          interimTranscript := ""
          sentenceEmitTimeout := false
          isActive := false
          isStarting := false },
       some { text := jsTrim st.interimTranscript
              language := st.languageCode
              confidence := 0.8
              participantId := st.participantId
              speakerName := st.speakerName
              sessionId := st.sessionId }) := by
  unfold stop flush
  dsimp only
  rw [if_pos h]

lemma stop_neg (st : RecognizerState) (h : ¬ jsTrim st.interimTranscript ≠ "") :
    stop st =
      ({ st with
          sentenceEmitTimeout := false
          isActive := false
          isStarting := false }, none) := by
  unfold stop flush
  dsimp only
  rw [if_neg h]

end SpeakerStreamRecognizer

/-- **C9.**  Processing a valid `audio_metadata` message for a participant
whose Speaker Stream already exists always calls `stop()` then `start()`
on that stream: the resulting stream is active with an empty accumulator
and the new sample rate, and — because `stop()` flushes — a non-blank
accumulated transcript is emitted as a Sentence Event (with the
accumulated text and confidence 0.8), while a blank accumulator emits
nothing. -/
theorem claim_C9_audio_metadata_restart
    (getParticipant : String → Option AudioMetadata.Participant)
    (participant : AudioMetadata.Participant)
    (participantId : String) (sampleRate : Nat) (targetLanguage : Option String)
    (sid : String) (st : RecognizerState)
    (hpid : participantId ≠ "") (hsr : sampleRate ≠ 0)
    (hlookup : getParticipant participantId = some participant)
    (hsess : participant.sessionId = sid)
    (hspeak : participant.isSpeaking = true ∨ participant.role = "host") :
    ∃ st₂ ev,
      AudioMetadata.processAudioMetadata getParticipant (some sid)
        participantId sampleRate targetLanguage st = some (st₂, ev)
      ∧ st₂.isActive = true ∧ st₂.isStarting = false
      ∧ st₂.interimTranscript = "" ∧ st₂.sentenceEmitTimeout = false
      ∧ st₂.sampleRate = sampleRate
      ∧ (jsTrim st.interimTranscript ≠ "" →
          ∃ e, ev = some e ∧ e.text = jsTrim st.interimTranscript ∧
            e.confidence = 0.8)
      ∧ (jsTrim st.interimTranscript = "" → ev = none) := by
  unfold AudioMetadata.processAudioMetadata
  rw [if_neg (by simp [hpid, hsr]), hlookup]
  dsimp only
  rw [if_neg (by simp [hsess]), if_neg (by
    intro hcon
    rcases hspeak with hs | hs
    · rw [hs] at hcon; simp at hcon
    · exact hcon.2 hs)]
  refine ⟨_, _, rfl, ?_⟩
  set st' : RecognizerState :=
    { st with
        sampleRate := sampleRate
        languageCode := match targetLanguage with
          | some l => if l = "" then "en-US" else l
          | none => "en-US" } with hst'
  by_cases htr : jsTrim st.interimTranscript ≠ ""
  · have htr' : jsTrim st'.interimTranscript ≠ "" := by rw [hst']; exact htr
    rw [SpeakerStreamRecognizer.stop_pos st' htr']
    exact ⟨rfl, rfl, rfl, rfl, rfl,
      fun _ => ⟨_, rfl, rfl, rfl⟩,
      fun hcon => absurd hcon htr⟩
  · have htr' : ¬ jsTrim st'.interimTranscript ≠ "" := by rw [hst']; exact htr
    rw [SpeakerStreamRecognizer.stop_neg st' htr']
    exact ⟨rfl, rfl, rfl, rfl, rfl,
      fun hcon => absurd hcon htr,
      fun _ => rfl⟩

/-- Witness for C9: a stream holding "Hello wor" mid-utterance, on a valid
`audio_metadata` for its speaking participant, restarts and flushes
"Hello wor" as a sentence. -/
theorem claim_C9_audio_metadata_restart_witness :
    jsTrim ({ freshRecognizer with
        interimTranscript := "Hello wor " } : RecognizerState).interimTranscript ≠ "" ∧
    ∃ st₂ ev,
      AudioMetadata.processAudioMetadata
        (fun _ => some { sessionId := "s1", name := "Alice", isSpeaking := true,
                         role := "participant" })
        (some "s1") "p1" 16000 (some "es-ES")
        { freshRecognizer with interimTranscript := "Hello wor " } = some (st₂, ev)
      ∧ st₂.isActive = true ∧ st₂.isStarting = false
      ∧ st₂.interimTranscript = "" ∧ st₂.sentenceEmitTimeout = false
      ∧ st₂.sampleRate = 16000
      ∧ (jsTrim ({ freshRecognizer with
            interimTranscript := "Hello wor " } : RecognizerState).interimTranscript ≠ "" →
          ∃ e, ev = some e ∧
            e.text = jsTrim ({ freshRecognizer with
              interimTranscript := "Hello wor " } : RecognizerState).interimTranscript ∧
            e.confidence = 0.8)
      ∧ (jsTrim ({ freshRecognizer with
            interimTranscript := "Hello wor " } : RecognizerState).interimTranscript = "" →
          ev = none) :=
  ⟨by decide,
   claim_C9_audio_metadata_restart
     (fun _ => some { sessionId := "s1", name := "Alice", isSpeaking := true,
                      role := "participant" })
     { sessionId := "s1", name := "Alice", isSpeaking := true, role := "participant" }
     "p1" 16000 (some "es-ES") "s1"
     { freshRecognizer with interimTranscript := "Hello wor " }
     (by decide) (by decide) rfl rfl (Or.inl rfl)⟩
